import Mathlib

/-!
Verification of the backup lifecycle manager of the GM5 gym-management
application (src/electron/main.cjs). The definitions below are a shallow
embedding of the relevant handlers: filesystem effects are threaded through
an explicit World state, backend and remote-sync outcomes come from an
explicit Env record, and the process-wide cron schedule is a SchedState.
-/

namespace GM5

/-- Opaque Google Drive credential bundle, field names as in the source. -/
structure Creds where
  client_id : String
  client_secret : String
  redirect_uri : String
  refresh_token : Option String
deriving DecidableEq, Repr

/-- Filesystem state: directories and files that currently exist. -/
structure World where
  dirs : List String
  files : List String
deriving DecidableEq, Repr

/-- Environment fixing the outcome of every external call a handler makes:
DatabaseService.backup/restore/repair, the Google Drive client setup and
upload, the open-file dialog, the clock, and the userData path. -/
structure Env where
  nowISO : String
  userData : String
  backupFails : Option String
  restoreFails : Option String
  repairFails : Option String
  setupFails : Bool
  uploadFails : Option String
  driveId : String
  dialogResult : Option String
deriving DecidableEq, Repr

/-- Replace every colon by a hyphen, as the regex replace of colons
with the global flag does in the source. -/
def subColon (c : Char) : Char :=
  if c = ':' then '-' else c

/-- Drop everything from the first dot that is followed by at least one
character, mirroring the non-global regex replace of a dot followed by
one or more characters with the empty string (greedy, so the match runs
to the end of the string; a trailing lone dot does not match). -/
def dropDotTail : List Char → List Char
  | [] => []
  | '.' :: _ :: _ => []
  | c :: rest => c :: dropDotTail rest

/-- Timestamp used in backup file names: the ISO string with colons
replaced by hyphens and the fractional-seconds tail removed
(replace colons globally, then replace the first dot-and-tail). -/
def tsOf (iso : String) : String :=
  ⟨dropDotTail (iso.data.map subColon)⟩

/-- Manual backup file name built by the backup-database handler. -/
def backupFileName (iso : String) : String :=
  "gym-backup-" ++ tsOf iso ++ ".db"

/-- Scheduled backup file name built by the cron callback. -/
def autoBackupFileName (iso : String) : String :=
  "gym-auto-backup-" ++ tsOf iso ++ ".db"

/-- path.join for the two-segment joins the handlers perform. -/
def joinPath (d f : String) : String :=
  d ++ "/" ++ f

/-- The canonical backup directory path under userData. -/
def backupDirPath (env : Env) : String :=
  joinPath env.userData "backups"

/-- ensureBackupDirectory: create the backups directory if absent and
return it. -/
def ensureBackupDirectory (env : Env) (w : World) : String × World :=
  (backupDirPath env,
    if backupDirPath env ∈ w.dirs then w
    else { w with dirs := backupDirPath env :: w.dirs })

/-- DatabaseService.backup: on success the destination file exists; on
failure the configured error message is thrown. -/
def dbBackup (env : Env) (p : String) (w : World) : Except String World :=
  match env.backupFails with
  | some m => Except.error m
  | none => Except.ok { w with files := p :: w.files }

/-- Result of the backup-database handler. -/
inductive BackupRes where
  | ok (path : String)
  | err (message : String)
deriving DecidableEq, Repr

/-- backup-database handler: ensure the directory, build the timestamped
path, delegate to the backend, and catch any error into a structured
failure result. -/
def backupDatabase (env : Env) (w : World) : BackupRes × World :=
  let (dir, w1) := ensureBackupDirectory env w
  let p := joinPath dir (backupFileName env.nowISO)
  match dbBackup env p w1 with
  | Except.error m => (BackupRes.err m, w1)
  | Except.ok w2 => (BackupRes.ok p, w2)

/-- Options of the backup-database-enhanced handler. -/
structure EnhOptions where
  customPath : Option String
  uploadToDrive : Bool
  driveCredentials : Option Creds
deriving DecidableEq, Repr

/-- Result of the backup-database-enhanced handler. -/
inductive EnhRes where
  | ok (path : String) (driveFileId : Option String)
  | err (message : String)
deriving DecidableEq, Repr

/-- backup-database-enhanced handler: local backup first (hard
dependency), then an optional Drive upload whose failure is caught and
swallowed into a null driveFileId. setupGoogleDrive returning null skips
the upload silently. -/
def backupDatabaseEnhanced (env : Env) (opts : EnhOptions) (w : World) :
    EnhRes × World :=
  let (p, w1) :=
    match opts.customPath with
    | some cp => (cp, w)
    | none =>
      let (dir, w1) := ensureBackupDirectory env w
      (joinPath dir (backupFileName env.nowISO), w1)
  match dbBackup env p w1 with
  | Except.error m => (EnhRes.err m, w1)
  | Except.ok w2 =>
    let driveFileId :=
      if opts.uploadToDrive && opts.driveCredentials.isSome then
        if env.setupFails then none
        else
          match env.uploadFails with
          | some _ => none
          | none => some env.driveId
      else none
    (EnhRes.ok p driveFileId, w2)

/-- Result of the restore-database handler. -/
inductive RestoreRes where
  | ok (needRestart : Bool)
  | canceled
  | err (message : String)
deriving DecidableEq, Repr

/-- restore-database handler: open-file dialog, then delegate to the
backend restore; cancellation and errors become structured results. -/
def restoreDatabase (env : Env) (w : World) : RestoreRes × World :=
  let (_, w1) := ensureBackupDirectory env w
  match env.dialogResult with
  | none => (RestoreRes.canceled, w1)
  | some _ =>
    match env.restoreFails with
    | some m => (RestoreRes.err m, w1)
    | none => (RestoreRes.ok true, w1)

/-- Result of the repair-database handler. -/
inductive RepairRes where
  | ok
  | err (message : String)
deriving DecidableEq, Repr

/-- repair-database handler. -/
def repairDatabase (env : Env) (w : World) : RepairRes × World :=
  match env.repairFails with
  | some m => (RepairRes.err m, w)
  | none => (RepairRes.ok, w)

/-- A node-cron trigger as the manager sees it: its cron pattern, the
credentials captured by its callback closure, and whether it is running. -/
structure Trigger where
  pattern : String
  creds : Option Creds
  running : Bool
deriving DecidableEq, Repr

/-- Process-wide schedule state: every trigger ever created (in creation
order) and the index held by the backupSchedule variable, if any. -/
structure SchedState where
  triggers : List Trigger
  cur : Option Nat
deriving DecidableEq, Repr

/-- The initial state: no trigger created, backupSchedule null. -/
def initState : SchedState := { triggers := [], cur := none }

/-- The fixed frequency-to-cron-pattern mapping of the switch statement;
none for the default branch. -/
def cronOf (s : String) : Option String :=
  if s = "daily" then some "0 2 * * *"
  else if s = "weekly" then some "0 2 * * 0"
  else if s = "monthly" then some "0 2 1 * *"
  else none

/-- Stop the trigger at the given index (set running to false). -/
def stopAt : List Trigger → Nat → List Trigger
  | [], _ => []
  | t :: ts, 0 => { t with running := false } :: ts
  | t :: ts, Nat.succ i => t :: stopAt ts i

/-- The opening lines of scheduleAutoBackup: if backupSchedule is set,
stop that trigger and null the variable. -/
def stopCurrent (st : SchedState) : SchedState :=
  match st.cur with
  | none => st
  | some i => { triggers := stopAt st.triggers i, cur := none }

/-- scheduleAutoBackup: stop any current trigger; then, when the schedule
argument is truthy and not manual, map it through the cron table and
start a new trigger capturing the supplied credentials (the default
switch branch returns without starting anything). -/
def scheduleAutoBackup (schedule : Option String) (creds : Option Creds)
    (st : SchedState) : SchedState :=
  let st1 := stopCurrent st
  match schedule with
  | none => st1
  | some s =>
    if s = "" then st1
    else if s = "manual" then st1
    else
      match cronOf s with
      | none => st1
      | some pat =>
        { triggers := st1.triggers ++ [⟨pat, creds, true⟩],
          cur := some st1.triggers.length }

/-- Result of the setup-auto-backup handler. -/
inductive SetupRes where
  | ok
  | err (message : String)
deriving DecidableEq, Repr

/-- setup-auto-backup handler: call scheduleAutoBackup and report
success; the surrounding catch never fires because scheduleAutoBackup
only stops or starts triggers with the fixed, valid cron patterns. -/
def setupAutoBackup (schedule : Option String) (creds : Option Creds)
    (st : SchedState) : SetupRes × SchedState :=
  (SetupRes.ok, scheduleAutoBackup schedule creds st)

/-- Number of running triggers. -/
def activeCount (st : SchedState) : Nat :=
  (st.triggers.filter (fun t => t.running)).length

/-- Schedule-state invariant: any running trigger is the one the
backupSchedule variable points at. -/
def WF (st : SchedState) : Prop :=
  ∀ j t, st.triggers.get? j = some t → t.running = true → st.cur = some j

/-- Outcome of one scheduled cron tick of one trigger. -/
structure TickOutcome where
  backupPath : Option String
  uploaded : Bool
  errorLogged : Option String
deriving DecidableEq, Repr

/-- Body of the cron callback, without its outer try/catch: ensure the
directory, back up to the auto-named path, and when credentials were
captured and the Drive client initializes, upload (an upload failure
propagates as an exception here). The World is threaded even on error
since the local file already exists when the upload throws. -/
def cronCallbackRaw (env : Env) (creds : Option Creds) (w : World) :
    Except String (String × Bool) × World :=
  let (dir, w1) := ensureBackupDirectory env w
  let p := joinPath dir (autoBackupFileName env.nowISO)
  match dbBackup env p w1 with
  | Except.error m => (Except.error m, w1)
  | Except.ok w2 =>
    if creds.isSome && !env.setupFails then
      match env.uploadFails with
      | some m => (Except.error m, w2)
      | none => (Except.ok (p, true), w2)
    else (Except.ok (p, false), w2)

/-- The cron callback as registered: the body wrapped in the outer
try/catch, which turns any failure into a logged message. -/
def cronCallback (env : Env) (creds : Option Creds) (w : World) :
    TickOutcome × World :=
  match cronCallbackRaw env creds w with
  | (Except.ok (p, up), w1) =>
    ({ backupPath := some p, uploaded := up, errorLogged := none }, w1)
  | (Except.error m, w1) =>
    ({ backupPath := none, uploaded := false, errorLogged := some m }, w1)

/-- Fire the callbacks of all running triggers in order, threading the
filesystem state. -/
def fireAll (env : Env) : List Trigger → World → World × List TickOutcome
  | [], w => (w, [])
  | t :: ts, w =>
    if t.running then
      let (o, w1) := cronCallback env t.creds w
      let (w2, os) := fireAll env ts w1
      (w2, o :: os)
    else fireAll env ts w

/-- One scheduled boundary: node-cron fires every running trigger; the
schedule state itself is untouched by a tick. -/
def runTick (env : Env) (st : SchedState) (w : World) :
    SchedState × World × List TickOutcome :=
  let r := fireAll env st.triggers w
  (st, r.1, r.2)

/-- A JSON-ish field value in a row returned by the database. -/
inductive JValue where
  | str (s : String)
  | num (n : Int)
  | nullv
deriving DecidableEq, Repr

/-- A row from DatabaseService.query, as a field map. -/
abbrev Row := List (String × JValue)

/-- Read a field of a row. -/
def rowLookup (r : Row) (k : String) : Option JValue :=
  (r.find? (fun q => q.1 == k)).map (fun q => q.2)

/-- The JS delete operator on a field of a row. -/
def rowDelete (r : Row) (k : String) : Row :=
  r.filter (fun q => q.1 != k)

/-- Environment of the login handler: the rows the user query returns
for a given username (or a thrown query error), and the bcrypt compare
oracle. -/
structure LoginEnv where
  query : String → Except String (List Row)
  compare : String → String → Bool

/-- Result of the login handler. -/
inductive LoginRes where
  | ok (user : Row)
  | fail (message : String)
deriving DecidableEq, Repr

/-- login handler: query the active user by name, bcrypt-compare the
password against the stored hash, delete the password_hash field from
the row, and return the row; every failure path yields a structured
failure (a missing or non-string hash makes bcrypt throw, which the
catch converts into the generic failure message). -/
def login (env : LoginEnv) (username password : String) : LoginRes :=
  match env.query username with
  | Except.error _ => LoginRes.fail "حدث خطأ أثناء تسجيل الدخول."
  | Except.ok [] => LoginRes.fail "اسم المستخدم أو كلمة المرور غير صحيحة."
  | Except.ok (row :: _) =>
    match rowLookup row "password_hash" with
    | some (JValue.str h) =>
      if env.compare password h then LoginRes.ok (rowDelete row "password_hash")
      else LoginRes.fail "اسم المستخدم أو كلمة المرور غير صحيحة."
    | _ => LoginRes.fail "حدث خطأ أثناء تسجيل الدخول."

/-! Helper lemmas about the schedule state. -/

/-- Reading the stopped index of stopAt yields the stopped trigger. -/
theorem stopAt_get?_self (ts : List Trigger) (i : Nat) :
    (stopAt ts i).get? i = (ts.get? i).map (fun t => { t with running := false }) := by
  induction ts generalizing i with
  | nil => cases i <;> rfl
  | cons t ts ih =>
    cases i with
    | zero => rfl
    | succ i => exact ih i

/-- Reading any other index of stopAt is unchanged. -/
theorem stopAt_get?_ne (ts : List Trigger) (i j : Nat) (h : j ≠ i) :
    (stopAt ts i).get? j = ts.get? j := by
  induction ts generalizing i j with
  | nil => cases i <;> rfl
  | cons t ts ih =>
    cases i with
    | zero =>
      cases j with
      | zero => exact absurd rfl h
      | succ j => rfl
    | succ i =>
      cases j with
      | zero => rfl
      | succ j => exact ih i j (fun e => h (by rw [e]))

/-- stopAt preserves the number of triggers. -/
theorem stopAt_length (ts : List Trigger) (i : Nat) :
    (stopAt ts i).length = ts.length := by
  induction ts generalizing i with
  | nil => cases i <;> rfl
  | cons t ts ih =>
    cases i with
    | zero => rfl
    | succ i => exact congrArg Nat.succ (ih i)

/-- After stopCurrent, every trigger of a well-formed state is stopped. -/
theorem stopCurrent_stopped (st : SchedState) (hWF : WF st) :
    ∀ j t, (stopCurrent st).triggers.get? j = some t → t.running = false := by
  intro j t h
  cases hc : st.cur with
  | none =>
    simp only [stopCurrent, hc] at h
    cases hr : t.running with
    | false => rfl
    | true => exact absurd (hWF j t h hr) (by simp [hc])
  | some i =>
    simp only [stopCurrent, hc] at h
    by_cases hji : j = i
    · subst hji
      rw [stopAt_get?_self] at h
      cases hg : st.triggers.get? j with
      | none => rw [hg] at h; exact Option.noConfusion h
      | some u =>
        rw [hg] at h
        have : { u with running := false } = t := Option.some.inj h
        rw [← this]
    · rw [stopAt_get?_ne _ _ _ hji] at h
      cases hr : t.running with
      | false => rfl
      | true =>
        have := hWF j t h hr
        rw [hc] at this
        exact absurd (Option.some.inj this).symm hji

/-- A list of stopped triggers filters to nothing. -/
theorem filter_running_nil (ts : List Trigger)
    (h : ∀ j t, ts.get? j = some t → t.running = false) :
    ts.filter (fun t => t.running) = [] := by
  induction ts with
  | nil => rfl
  | cons t ts ih =>
    have ht : t.running = false := h 0 t rfl
    rw [List.filter_cons, if_neg (by simp [ht])]
    exact ih (fun j u hu => h (j + 1) u hu)

/-- Reading before the appended element. -/
theorem get?_append_lt (l m : List Trigger) (j : Nat) (h : j < l.length) :
    (l ++ m).get? j = l.get? j := by
  induction l generalizing j with
  | nil => exact absurd h (by simp)
  | cons b l ih =>
    cases j with
    | zero => rfl
    | succ j => exact ih j (Nat.lt_of_succ_lt_succ h)

/-- Reading the index of a just-appended element. -/
theorem get?_append_len (l : List Trigger) (a : Trigger) :
    (l ++ [a]).get? l.length = some a := by
  induction l with
  | nil => rfl
  | cons b l ih => exact ih

/-- Reading past a just-appended element. -/
theorem get?_append_gt (l : List Trigger) (a : Trigger) (j : Nat)
    (h : l.length < j) :
    (l ++ [a]).get? j = none := by
  induction l generalizing j with
  | nil =>
    cases j with
    | zero => exact absurd h (by simp)
    | succ j => rfl
  | cons b l ih =>
    cases j with
    | zero => exact absurd h (by simp)
    | succ j => exact ih j (Nat.lt_of_succ_lt_succ h)

/-- A frequency the cron table maps is not the empty string. -/
theorem cronOf_ne_empty (s pat : String) (h : cronOf s = some pat) : s ≠ "" := by
  intro e
  have h0 : cronOf "" = none := rfl
  rw [e, h0] at h
  exact Option.noConfusion h

/-- A frequency the cron table maps is not manual. -/
theorem cronOf_ne_manual (s pat : String) (h : cronOf s = some pat) :
    s ≠ "manual" := by
  intro e
  have h0 : cronOf "manual" = none := rfl
  rw [e, h0] at h
  exact Option.noConfusion h

/-- Unfolding of scheduleAutoBackup on a frequency the cron table maps:
the stopped state gets one new running trigger appended and pointed at. -/
theorem scheduleAutoBackup_valid (s pat : String) (h : cronOf s = some pat)
    (c : Option Creds) (st : SchedState) :
    scheduleAutoBackup (some s) c st =
      { triggers := (stopCurrent st).triggers ++ [⟨pat, c, true⟩],
        cur := some (stopCurrent st).triggers.length } := by
  have h0 : s ≠ "" := cronOf_ne_empty s pat h
  have h1 : s ≠ "manual" := cronOf_ne_manual s pat h
  simp [scheduleAutoBackup, h0, h1, h]

/-- After scheduling a mapped frequency from a well-formed state: exactly
one running trigger, well-formedness is preserved, and the new trigger
carries the mapped pattern and the supplied credentials. -/
theorem schedule_valid_spec (s pat : String) (h : cronOf s = some pat)
    (c : Option Creds) (st : SchedState) (hWF : WF st) :
    activeCount (scheduleAutoBackup (some s) c st) = 1 ∧
    WF (scheduleAutoBackup (some s) c st) ∧
    (scheduleAutoBackup (some s) c st).triggers.get?
      (stopCurrent st).triggers.length = some ⟨pat, c, true⟩ := by
  have hstop := stopCurrent_stopped st hWF
  rw [scheduleAutoBackup_valid s pat h c st]
  refine ⟨?_, ?_, ?_⟩
  · unfold activeCount
    simp only
    rw [List.filter_append, filter_running_nil _ hstop]
    rfl
  · intro j t hj hr
    rcases Nat.lt_trichotomy j (stopCurrent st).triggers.length with hlt | heq | hgt
    · rw [get?_append_lt _ _ _ hlt] at hj
      have := hstop j t hj
      rw [this] at hr
      exact Bool.noConfusion hr
    · simp [heq]
    · rw [get?_append_gt _ _ _ hgt] at hj
      exact Option.noConfusion hj
  · exact get?_append_len _ _

/-- All running triggers being stopped means a tick fires nothing. -/
theorem fireAll_nil (env : Env) (ts : List Trigger) (w : World)
    (h : ∀ j t, ts.get? j = some t → t.running = false) :
    fireAll env ts w = (w, []) := by
  induction ts generalizing w with
  | nil => rfl
  | cons t ts ih =>
    have ht : t.running = false := h 0 t rfl
    rw [fireAll.eq_def]
    simp only [ht, Bool.false_eq_true, if_false]
    exact ih w (fun j u hu => h (j + 1) u hu)

/-- The initial state is well-formed. -/
theorem WF_initState : WF initState := by
  intro j t h
  exact absurd h (by simp [initState])

/-- Example state holding one running daily trigger. -/
def oneTrigger : SchedState :=
  { triggers := [⟨"0 2 * * *", none, true⟩], cur := some 0 }

/-- The one-trigger example state is well-formed. -/
theorem WF_oneTrigger : WF oneTrigger := by
  intro j t h hr
  match j with
  | 0 => rfl
  | Nat.succ j => exact Option.noConfusion h

/-! Shared concrete fixtures for witnesses. -/

/-- Empty filesystem. -/
def w0 : World := { dirs := [], files := [] }

/-- A healthy environment: every external call succeeds. -/
def env0 : Env :=
  { nowISO := "2025-01-02T03:04:05.678Z", userData := "/ud",
    backupFails := none, restoreFails := none, repairFails := none,
    setupFails := false, uploadFails := none, driveId := "drive-1",
    dialogResult := some "/ud/backups/old.db" }

/-- Example credential bundle. -/
def credsEx : Creds :=
  { client_id := "cid", client_secret := "cs", redirect_uri := "ru",
    refresh_token := some "rt" }

/-- Environment whose Drive upload throws. -/
def envUploadFail : Env := { env0 with uploadFails := some "network down" }

/-- Environment whose local backend calls all throw. -/
def envLocalFail : Env :=
  { env0 with
    backupFails := some "disk full"
    restoreFails := some "disk full"
    repairFails := some "disk full" }

/-- Enhanced-backup options asking for a Drive upload. -/
def optsUp : EnhOptions :=
  { customPath := none, uploadToDrive := true, driveCredentials := some credsEx }

/-! Claim theorems. -/

/-- C2: for valid non-manual frequencies, scheduling twice in succession
leaves exactly one running trigger; the first call's trigger has been
stopped in the final state, so no duplicate scheduled backups can fire. -/
theorem c2_schedule_twice_one_trigger (s₁ s₂ : String) (c₁ c₂ : Option Creds)
    (st : SchedState) (hWF : WF st)
    (h₁ : s₁ ∈ (["daily", "weekly", "monthly"] : List String))
    (h₂ : s₂ ∈ (["daily", "weekly", "monthly"] : List String)) :
    activeCount (scheduleAutoBackup (some s₂) c₂
      (scheduleAutoBackup (some s₁) c₁ st)) = 1 ∧
    (∃ pat₁, cronOf s₁ = some pat₁ ∧
      (scheduleAutoBackup (some s₂) c₂
          (scheduleAutoBackup (some s₁) c₁ st)).triggers.get?
        (stopCurrent st).triggers.length = some ⟨pat₁, c₁, false⟩) := by
  obtain ⟨p₁, hp₁⟩ : ∃ p, cronOf s₁ = some p := by
    simp only [List.mem_cons, List.not_mem_nil, or_false] at h₁
    rcases h₁ with h | h | h <;> subst h <;> exact ⟨_, rfl⟩
  obtain ⟨p₂, hp₂⟩ : ∃ p, cronOf s₂ = some p := by
    simp only [List.mem_cons, List.not_mem_nil, or_false] at h₂
    rcases h₂ with h | h | h <;> subst h <;> exact ⟨_, rfl⟩
  have r₁ := schedule_valid_spec s₁ p₁ hp₁ c₁ st hWF
  have r₂ := schedule_valid_spec s₂ p₂ hp₂ c₂ _ r₁.2.1
  refine ⟨r₂.1, p₁, hp₁, ?_⟩
  set st₁ := scheduleAutoBackup (some s₁) c₁ st with hst₁
  set n := (stopCurrent st).triggers.length with hn
  have hcur₁ : st₁.cur = some n := by
    rw [hst₁, scheduleAutoBackup_valid s₁ p₁ hp₁ c₁ st]
  have htr₁ : st₁.triggers.get? n = some ⟨p₁, c₁, true⟩ := r₁.2.2
  rw [scheduleAutoBackup_valid s₂ p₂ hp₂ c₂ st₁]
  have hlen : n < (stopCurrent st₁).triggers.length := by
    simp only [stopCurrent, hcur₁]
    rw [stopAt_length, hst₁, scheduleAutoBackup_valid s₁ p₁ hp₁ c₁ st]
    simp [hn]
  rw [get?_append_lt _ _ _ hlen]
  simp only [stopCurrent, hcur₁]
  rw [stopAt_get?_self, htr₁]
  rfl

/-- C2 witness at two concrete frequencies from the initial state. -/
theorem c2_witness :
    activeCount (scheduleAutoBackup (some "weekly") none
      (scheduleAutoBackup (some "daily") none initState)) = 1 ∧
    (∃ pat₁, cronOf "daily" = some pat₁ ∧
      (scheduleAutoBackup (some "weekly") none
          (scheduleAutoBackup (some "daily") none initState)).triggers.get?
        (stopCurrent initState).triggers.length = some ⟨pat₁, none, false⟩) :=
  c2_schedule_twice_one_trigger "daily" "weekly" none none initState
    WF_initState (by simp) (by simp)

/-- C3: scheduling manual after a non-manual schedule invokes the stop of
the active trigger, leaves no trigger running, and a subsequent scheduled
tick fires no backup at all. -/
theorem c3_manual_deactivates (st : SchedState) (i : Nat) (t : Trigger)
    (c : Option Creds) (env : Env) (w : World) (hWF : WF st)
    (hcur : st.cur = some i) (hget : st.triggers.get? i = some t) :
    (scheduleAutoBackup (some "manual") c st).triggers.get? i =
      some { t with running := false } ∧
    activeCount (scheduleAutoBackup (some "manual") c st) = 0 ∧
    (runTick env (scheduleAutoBackup (some "manual") c st) w).2.2 = [] := by
  have hm : scheduleAutoBackup (some "manual") c st = stopCurrent st := rfl
  rw [hm]
  have hstop := stopCurrent_stopped st hWF
  refine ⟨?_, ?_, ?_⟩
  · simp only [stopCurrent, hcur]
    rw [stopAt_get?_self, hget]
    rfl
  · unfold activeCount
    rw [filter_running_nil _ hstop]
    rfl
  · simp only [runTick]
    rw [fireAll_nil env _ w hstop]

/-- C3 witness: the one-trigger state scheduled to manual. -/
theorem c3_witness :
    (scheduleAutoBackup (some "manual") none oneTrigger).triggers.get? 0 =
      some { pattern := "0 2 * * *", creds := none, running := false } ∧
    activeCount (scheduleAutoBackup (some "manual") none oneTrigger) = 0 ∧
    (runTick env0 (scheduleAutoBackup (some "manual") none oneTrigger) w0).2.2
      = [] :=
  c3_manual_deactivates oneTrigger 0 ⟨"0 2 * * *", none, true⟩ none env0 w0
    WF_oneTrigger rfl rfl

/-- C4: the fixed frequency-to-cron mapping is daily 02:00, Sunday 02:00
and first-of-month 02:00; scheduling a mapped frequency starts a trigger
carrying that pattern and the supplied credentials; and in an environment
where the backend and the Drive client setup succeed, the scheduled
callback uploads exactly when credentials are present. -/
theorem c4_cron_mapping (s pat : String) (c : Option Creds) (st : SchedState)
    (env : Env) (creds : Option Creds) (w : World)
    (hs : cronOf s = some pat)
    (h1 : env.backupFails = none) (h2 : env.setupFails = false)
    (h3 : env.uploadFails = none) :
    cronOf "daily" = some "0 2 * * *" ∧
    cronOf "weekly" = some "0 2 * * 0" ∧
    cronOf "monthly" = some "0 2 1 * *" ∧
    (scheduleAutoBackup (some s) c st).triggers.get?
      (stopCurrent st).triggers.length = some ⟨pat, c, true⟩ ∧
    (cronCallback env creds w).1.uploaded = creds.isSome := by
  refine ⟨rfl, rfl, rfl, ?_, ?_⟩
  · rw [scheduleAutoBackup_valid s pat hs c st]
    exact get?_append_len _ _
  · cases creds with
    | none => simp [cronCallback, cronCallbackRaw, dbBackup, h1]
    | some c0 => simp [cronCallback, cronCallbackRaw, dbBackup, h1, h2, h3]

/-- C4 witness at the daily frequency in the healthy environment. -/
theorem c4_witness :
    cronOf "daily" = some "0 2 * * *" ∧
    cronOf "weekly" = some "0 2 * * 0" ∧
    cronOf "monthly" = some "0 2 1 * *" ∧
    (scheduleAutoBackup (some "daily") (some credsEx) initState).triggers.get?
      (stopCurrent initState).triggers.length =
      some ⟨"0 2 * * *", some credsEx, true⟩ ∧
    (cronCallback env0 (some credsEx) w0).1.uploaded = (some credsEx).isSome :=
  c4_cron_mapping "daily" "0 2 * * *" (some credsEx) initState env0
    (some credsEx) w0 rfl rfl rfl rfl

/-- C5 counterexample: the frequency hourly is outside the valid set, yet
setup-auto-backup reports success rather than a schedule error. -/
theorem c5_counterexample :
    (setupAutoBackup (some "hourly") none initState).1 = SetupRes.ok ∧
    activeCount (setupAutoBackup (some "hourly") none initState).2 = 0 :=
  ⟨rfl, rfl⟩

/-- C5 amended: a truthy frequency outside the cron table (and not
manual) is silently accepted: any existing trigger is stopped, no new
trigger is started, and the handler still reports success. -/
theorem c5_amended_silent_accept (s : String) (c : Option Creds)
    (st : SchedState) (hWF : WF st) (h0 : s ≠ "") (h1 : s ≠ "manual")
    (h2 : cronOf s = none) :
    (setupAutoBackup (some s) c st).1 = SetupRes.ok ∧
    activeCount (setupAutoBackup (some s) c st).2 = 0 := by
  refine ⟨rfl, ?_⟩
  have hm : scheduleAutoBackup (some s) c st = stopCurrent st := by
    simp [scheduleAutoBackup, h0, h1, h2]
  simp only [setupAutoBackup, hm]
  unfold activeCount
  rw [filter_running_nil _ (stopCurrent_stopped st hWF)]
  rfl

/-- C5 amended witness: hourly against the one-trigger state. -/
theorem c5_amended_witness :
    (setupAutoBackup (some "hourly") none oneTrigger).1 = SetupRes.ok ∧
    activeCount (setupAutoBackup (some "hourly") none oneTrigger).2 = 0 :=
  c5_amended_silent_accept "hourly" none oneTrigger WF_oneTrigger
    (by decide) (by decide) rfl

/-- C6: a scheduled run whose body throws has the error caught into a log
message by the callback wrapper, and a tick never changes the schedule
state, so the active triggers and hence the next scheduled firing are
preserved. -/
theorem c6_scheduled_errors_contained (env : Env) (creds : Option Creds)
    (w : World) (st : SchedState) (m : String)
    (h : (cronCallbackRaw env creds w).1 = Except.error m) :
    (cronCallback env creds w).1.errorLogged = some m ∧
    (runTick env st w).1 = st ∧
    activeCount (runTick env st w).1 = activeCount st := by
  refine ⟨?_, rfl, rfl⟩
  unfold cronCallback
  rcases hr : cronCallbackRaw env creds w with ⟨e, w1⟩
  rw [hr] at h
  cases e with
  | error m2 =>
    have : m2 = m := Except.error.inj h
    rw [this]
  | ok pr => exact absurd h (by simp)

/-- C6 witness: a failing backend during a scheduled tick. -/
theorem c6_witness :
    (cronCallback envLocalFail none w0).1.errorLogged = some "disk full" ∧
    (runTick envLocalFail oneTrigger w0).1 = oneTrigger ∧
    activeCount (runTick envLocalFail oneTrigger w0).1 =
      activeCount oneTrigger :=
  c6_scheduled_errors_contained envLocalFail none w0 oneTrigger "disk full" rfl

/-- C1: when the local backup succeeds and the Drive upload throws while
upload was requested with credentials, the enhanced backup still returns
success with a null driveFileId, and the local file at the returned path
exists. -/
theorem c1_upload_failure_nonfatal (env : Env) (opts : EnhOptions) (w : World)
    (hup : opts.uploadToDrive = true)
    (hcred : opts.driveCredentials.isSome = true)
    (hlocal : env.backupFails = none) (m : String)
    (hfail : env.uploadFails = some m) :
    ∃ p, (backupDatabaseEnhanced env opts w).1 = EnhRes.ok p none ∧
      p ∈ (backupDatabaseEnhanced env opts w).2.files := by
  cases hcp : opts.customPath with
  | some cp =>
    refine ⟨cp, ?_⟩
    cases hsf : env.setupFails <;>
      simp [backupDatabaseEnhanced, hcp, dbBackup, hlocal, hup, hcred, hfail,
        hsf]
  | none =>
    refine ⟨joinPath (backupDirPath env) (backupFileName env.nowISO), ?_⟩
    cases hsf : env.setupFails <;>
      simp [backupDatabaseEnhanced, hcp, dbBackup, hlocal, hup, hcred, hfail,
        hsf, ensureBackupDirectory]

/-- C1 witness: upload throws in an otherwise healthy run. -/
theorem c1_witness :
    ∃ p, (backupDatabaseEnhanced envUploadFail optsUp w0).1 =
        EnhRes.ok p none ∧
      p ∈ (backupDatabaseEnhanced envUploadFail optsUp w0).2.files :=
  c1_upload_failure_nonfatal envUploadFail optsUp w0 rfl rfl rfl
    "network down" rfl

/-- Modelled from the wording of the spec for comparison only: the manual
backup file name with only the colons of the ISO timestamp replaced by
hyphens, nothing else changed. -/
def specManualBackupName (iso : String) : String :=
  "gym-backup-" ++ (⟨iso.data.map subColon⟩ : String) ++ ".db"

/-- C7 counterexample: on a concrete ISO timestamp the handler also strips
the fractional-seconds tail, so the produced name differs from the
only-colons-replaced name the claim states. -/
theorem c7_counterexample :
    backupFileName "2025-01-02T03:04:05.678Z" =
      "gym-backup-2025-01-02T03-04-05.db" ∧
    specManualBackupName "2025-01-02T03:04:05.678Z" =
      "gym-backup-2025-01-02T03-04-05.678Z.db" ∧
    backupFileName "2025-01-02T03:04:05.678Z" ≠
      specManualBackupName "2025-01-02T03:04:05.678Z" := by
  refine ⟨by decide, by decide, by decide⟩

/-- C7 amended: manual backups are named with the gym-backup prefix and
scheduled backups with the gym-auto-backup prefix over the timestamp
obtained by replacing colons with hyphens and dropping the tail from the
first dot; both live in the backups subdirectory of userData, which is
created on first use and whose creation is idempotent. -/
theorem c7_amended_naming (env : Env) (w : World) (creds : Option Creds)
    (hlocal : env.backupFails = none) :
    (backupDatabase env w).1 =
      BackupRes.ok (joinPath (backupDirPath env) (backupFileName env.nowISO)) ∧
    joinPath (backupDirPath env) (autoBackupFileName env.nowISO) ∈
      (cronCallback env creds w).2.files ∧
    backupDirPath env ∈ (ensureBackupDirectory env w).2.dirs ∧
    (ensureBackupDirectory env w).1 = joinPath env.userData "backups" ∧
    ensureBackupDirectory env (ensureBackupDirectory env w).2 =
      ensureBackupDirectory env w ∧
    backupFileName env.nowISO = "gym-backup-" ++ tsOf env.nowISO ++ ".db" ∧
    autoBackupFileName env.nowISO =
      "gym-auto-backup-" ++ tsOf env.nowISO ++ ".db" := by
  refine ⟨?_, ?_, ?_, rfl, ?_, rfl, rfl⟩
  · simp [backupDatabase, ensureBackupDirectory, dbBackup, hlocal]
  · cases hb : (creds.isSome && !env.setupFails) with
    | false =>
      simp [cronCallback, cronCallbackRaw, dbBackup, hlocal, hb,
        ensureBackupDirectory]
    | true =>
      cases hu : env.uploadFails <;>
        simp [cronCallback, cronCallbackRaw, dbBackup, hlocal, hb, hu,
          ensureBackupDirectory]
  · by_cases hd : backupDirPath env ∈ w.dirs <;>
      simp [ensureBackupDirectory, hd]
  · by_cases hd : backupDirPath env ∈ w.dirs <;>
      simp [ensureBackupDirectory, hd]

/-- C7 amended witness in the healthy environment. -/
theorem c7_amended_witness :
    (backupDatabase env0 w0).1 =
      BackupRes.ok (joinPath (backupDirPath env0) (backupFileName env0.nowISO)) ∧
    joinPath (backupDirPath env0) (autoBackupFileName env0.nowISO) ∈
      (cronCallback env0 none w0).2.files ∧
    backupDirPath env0 ∈ (ensureBackupDirectory env0 w0).2.dirs ∧
    (ensureBackupDirectory env0 w0).1 = joinPath env0.userData "backups" ∧
    ensureBackupDirectory env0 (ensureBackupDirectory env0 w0).2 =
      ensureBackupDirectory env0 w0 ∧
    backupFileName env0.nowISO = "gym-backup-" ++ tsOf env0.nowISO ++ ".db" ∧
    autoBackupFileName env0.nowISO =
      "gym-auto-backup-" ++ tsOf env0.nowISO ++ ".db" :=
  c7_amended_naming env0 w0 none rfl

/-- C8: every local backend failure surfaces from the façade as a
structured error result carrying the message, setup-auto-backup reports
success, and a remote upload failure after a successful local backup is
downgraded to success with a null remote identifier. -/
theorem c8_facade_error_policy (env envU : Env) (w : World)
    (opts optsU : EnhOptions) (sched : Option String) (creds : Option Creds)
    (st : SchedState) (m mu p : String)
    (hb : env.backupFails = some m)
    (hd : env.dialogResult = some p)
    (hr : env.restoreFails = some m)
    (hrp : env.repairFails = some m)
    (hu1 : envU.backupFails = none)
    (hu2 : envU.uploadFails = some mu) :
    (backupDatabase env w).1 = BackupRes.err m ∧
    (backupDatabaseEnhanced env opts w).1 = EnhRes.err m ∧
    (restoreDatabase env w).1 = RestoreRes.err m ∧
    (repairDatabase env w).1 = RepairRes.err m ∧
    (setupAutoBackup sched creds st).1 = SetupRes.ok ∧
    (∃ q, (backupDatabaseEnhanced envU optsU w).1 = EnhRes.ok q none) := by
  refine ⟨?_, ?_, ?_, ?_, rfl, ?_⟩
  · simp [backupDatabase, ensureBackupDirectory, dbBackup, hb]
  · cases hcp : opts.customPath <;>
      simp [backupDatabaseEnhanced, hcp, dbBackup, hb, ensureBackupDirectory]
  · simp [restoreDatabase, hd, hr]
  · simp [repairDatabase, hrp]
  · cases hcp : optsU.customPath with
    | some cp =>
      refine ⟨cp, ?_⟩
      cases hbo : (optsU.uploadToDrive && optsU.driveCredentials.isSome) <;>
        cases hsf : envU.setupFails <;>
          simp [backupDatabaseEnhanced, hcp, dbBackup, hu1, hu2, hbo, hsf]
    | none =>
      refine ⟨joinPath (backupDirPath envU) (backupFileName envU.nowISO), ?_⟩
      cases hbo : (optsU.uploadToDrive && optsU.driveCredentials.isSome) <;>
        cases hsf : envU.setupFails <;>
          simp [backupDatabaseEnhanced, hcp, dbBackup, hu1, hu2, hbo, hsf,
            ensureBackupDirectory]

/-- C8 witness with a failing backend and a failing upload. -/
theorem c8_witness :
    (backupDatabase envLocalFail w0).1 = BackupRes.err "disk full" ∧
    (backupDatabaseEnhanced envLocalFail optsUp w0).1 =
      EnhRes.err "disk full" ∧
    (restoreDatabase envLocalFail w0).1 = RestoreRes.err "disk full" ∧
    (repairDatabase envLocalFail w0).1 = RepairRes.err "disk full" ∧
    (setupAutoBackup (some "daily") none initState).1 = SetupRes.ok ∧
    (∃ q, (backupDatabaseEnhanced envUploadFail optsUp w0).1 =
      EnhRes.ok q none) :=
  c8_facade_error_policy envLocalFail envUploadFail w0 optsUp optsUp
    (some "daily") none initState "disk full" "network down"
    "/ud/backups/old.db" rfl rfl rfl rfl rfl rfl

/-- Deleting a key from a row removes it from lookup. -/
theorem find?_filter_ne (r : Row) (k : String) :
    (r.filter (fun q => q.1 != k)).find? (fun q => q.1 == k) = none := by
  induction r with
  | nil => rfl
  | cons q r ih =>
    rw [List.filter_cons]
    by_cases h : q.1 = k
    · rw [if_neg (by simp [h])]
      exact ih
    · rw [if_pos (by simp [h])]
      rw [List.find?_cons_of_neg _ (by simp [h])]
      exact ih

/-- Lookup of a deleted key yields nothing. -/
theorem rowLookup_delete (r : Row) (k : String) :
    rowLookup (rowDelete r k) k = none := by
  simp only [rowLookup, rowDelete, find?_filter_ne]
  rfl

/-- C10: a successful login result never carries the password_hash field:
the hash is deleted from the row before it is returned. -/
theorem c10_login_strips_hash (env : LoginEnv) (username password : String)
    (user : Row) (h : login env username password = LoginRes.ok user) :
    rowLookup user "password_hash" = none := by
  unfold login at h
  split at h
  · exact LoginRes.noConfusion h
  · exact LoginRes.noConfusion h
  · split at h
    · split at h
      · have : rowDelete _ "password_hash" = user := LoginRes.ok.inj h
        rw [← this]
        exact rowLookup_delete _ "password_hash"
      · exact LoginRes.noConfusion h
    · exact LoginRes.noConfusion h

/-- Concrete login environment: one active user row with a stored hash,
and a bcrypt oracle that accepts. -/
def loginEnvEx : LoginEnv :=
  { query := fun _ => Except.ok
      [[("id", JValue.num 1), ("username", JValue.str "admin"),
        ("password_hash", JValue.str "h1")]],
    compare := fun _ _ => true }

/-- C10 witness: the returned user of a concrete successful login has no
password_hash field. -/
theorem c10_witness :
    rowLookup [("id", JValue.num 1), ("username", JValue.str "admin")]
      "password_hash" = none :=
  c10_login_strips_hash loginEnvEx "admin" "pw"
    [("id", JValue.num 1), ("username", JValue.str "admin")] rfl

end GM5
